import Mathlib

/-!
Verification of the `glivedisk` build pipeline (`src/python3/glivedisk/builder.py`).

The development is a shallow embedding of the `Builder` class.  Side effects on
the host (mounts, the autoresume checkpoint store, invocations of external
tools) are modelled by an explicit state `BState` threaded through every
operation, and the unpredictable parts of the world (which paths exist, whether
an `umount`/`mount` command succeeds, ...) by a static oracle `Env`.  A method
that can raise `CatalystError` returns `BState × Option String`, the `Option`
holding the message of the raised error.  Invocations of external commands are
recorded in an event trace inside the state so that ordering properties
("unmount in reverse order", "the extractor is invoked exactly once") can be
stated.
-/

namespace Glivedisk

/-- Observable events of a build: each constructor records one invocation of an
external operation performed by `Builder` (a `umount`/`mount` command, killing
chroot pids, running the decompressor/compressor, clearing a directory,
starting an action-sequence stage, running the controller script, the
skip/warning log notices of `unbind`). -/
inductive Ev where
  | stage (name : String)
  | umount (target : String)
  | kill
  | skipAbsent (target : String)
  | skipNotMounted (target : String)
  | warnUmountFailed (target : String)
  | mount (target : String)
  | extract (source : String) (destination : String)
  | compress (filename : String)
  | clearDir (path : String)
  | ctrl (args : List String)
  | copyConfig (kname : String)
  | snapHashWrite (h : String)
deriving DecidableEq

/-- Modelled from the spec: the checkpoint/resume store (`AutoResume` from the
module `glivedisk.resume`, which is not among the provided sources).  Per spec
§4.1 and §6 a checkpoint is one addressable record keyed by stage name whose
existence means "satisfied" and whose contents are an optional data payload;
`clear_all` removes every record.  We model the store as an association list
from stage name to the optional data. -/
abbrev Resume := List (String × Option String)

/-- Modelled from the spec: `AutoResume.is_enabled(point)` — true iff a record
for `point` exists in the store. -/
def resumeIsEnabled (r : Resume) (point : String) : Bool :=
  (r.find? (fun p => p.1 == point)).isSome

/-- Modelled from the spec: `AutoResume.get(point)` — the recorded data, or
none when the record is absent or carries no data. -/
def resumeGet (r : Resume) (point : String) : Option String :=
  match r.find? (fun p => p.1 == point) with
  | some p => p.2
  | none => none

/-- Modelled from the spec: `AutoResume.enable(point, data)` — marks the point
satisfied and stores the data, overwriting any previous record. -/
def resumeEnable (r : Resume) (point : String) (data : Option String) : Resume :=
  (point, data) :: r.filter (fun p => p.1 != point)

/-- The mutable world state threaded through the embedded `Builder` methods:
the set of chroot targets that are currently mount points (`support.ismount`),
the autoresume store, and the trace of performed external operations. -/
@[ext]
structure BState where
  mounted : List String
  resume : Resume
  trace : List Ev
deriving DecidableEq

/-- The static world oracle: which paths exist / are directories / are plain
files, and whether the individual external commands succeed.  `umountOk1` is
the outcome of the first `umount` attempt on a target, `umountOk2` the outcome
of the retry performed after `kill_chroot_pids`.  `extractOk`/`compressOk` are
the boolean results of `CompressMap.extract`/`compress`.  `snapCacheHash` is
the contents of the `catalyst-hash` file of the snapshot cache (none when the
file is missing). -/
structure Env where
  pathExists : String → Bool
  isDir : String → Bool
  isFile : String → Bool
  umountOk1 : String → Bool
  umountOk2 : String → Bool
  mountOk : String → Bool
  extractOk : String → Bool
  compressOk : Bool
  cmdOk : List String → Bool
  snapCacheHash : Option String

/-- The per-build configuration consumed by the embedded methods: the relevant
entries of `self.settings`, `self.mounts` (logical mount names in insertion
order), `self.target_mounts` and `self.mountmap`. -/
structure Cfg where
  mounts : List String
  targetMounts : String → String
  mountmap : String → String
  chrootPath : String
  options : List String
  sourcePath : String
  sourcePathHash : String
  snapshotPath : String
  snapshotPathHash : String
  snapshotCachePath : String
  repoBasedir : String
  repoName : String
  targetPath : String
  varTmpfsPortage : Bool
  hasKernelConfig : String → Bool
  kernelConfigPath : String → String
  hasInitramfsOverlay : String → Bool

/-- `support.normpath(self.settings["chroot_path"] + self.target_mounts[x])`:
the on-disk target of logical mount `x`.  `support.normpath` is not among the
provided sources; it is path normalization and is modelled as plain
concatenation. -/
def targetOf (cfg : Cfg) (x : String) : String :=
  cfg.chrootPath ++ cfg.targetMounts x

/-- The message of the aggregate error raised by `Builder.unbind` (line 914).
Note that it is a constant: it does not mention the targets that could not be
unmounted (those are only named in per-target `log.warning` calls). -/
def unmountFailMsg : String :=
  "Couldn't umount one or more bind-mounts; aborting for safety."

/-- The loop body of `Builder.unbind` (builder.py lines 887-909): for each
logical mount (the caller passes the reversed mount list), skip absent targets
and targets that are not mount points (with a log notice), otherwise run
`umount`; on failure kill the chroot pids and retry once; if the retry also
fails set the `ouch` flag and log a warning naming the target.  A successful
`umount` makes the target no longer a mount point.  `kill_chroot_pids`
(lines 571-580) only runs the kill script and exports environment variables;
it touches neither the mount state nor the resume store. -/
def unbindGo (env : Env) (cfg : Cfg) : List String → Bool → BState → BState × Bool
  | [], ouch, st => (st, ouch)
  | x :: rest, ouch, st =>
    if env.pathExists (targetOf cfg x) then
      if st.mounted.contains (targetOf cfg x) then
        if env.umountOk1 (targetOf cfg x) then
          unbindGo env cfg rest ouch
            { st with mounted := st.mounted.filter (fun u => u != targetOf cfg x),
                      trace := st.trace ++ [Ev.umount (targetOf cfg x)] }
        else if env.umountOk2 (targetOf cfg x) then
          unbindGo env cfg rest ouch
            { st with mounted := st.mounted.filter (fun u => u != targetOf cfg x),
                      trace := st.trace ++
                        [Ev.umount (targetOf cfg x), Ev.kill, Ev.umount (targetOf cfg x)] }
        else
          unbindGo env cfg rest true
            { st with trace := st.trace ++
                [Ev.umount (targetOf cfg x), Ev.kill, Ev.umount (targetOf cfg x),
                 Ev.warnUmountFailed (targetOf cfg x)] }
      else
        unbindGo env cfg rest ouch
          { st with trace := st.trace ++ [Ev.skipNotMounted (targetOf cfg x)] }
    else
      unbindGo env cfg rest ouch
        { st with trace := st.trace ++ [Ev.skipAbsent (targetOf cfg x)] }

/-- `Builder.unbind` (builder.py lines 881-914): iterate the mounts in
reverse insertion order, then raise the single aggregate `CatalystError` iff
some target could not be unmounted. -/
def unbind (env : Env) (cfg : Cfg) (st : BState) : BState × Option String :=
  if (unbindGo env cfg cfg.mounts.reverse false st).2 then
    ((unbindGo env cfg cfg.mounts.reverse false st).1, some unmountFailMsg)
  else ((unbindGo env cfg cfg.mounts.reverse false st).1, none)

/-- Specification helper (not part of the embedding): the events `unbind`
produces for one target, as a function of the oracle and of the initially
mounted set. -/
def unbindEventsFor (env : Env) (mounted0 : List String) (target : String) : List Ev :=
  if env.pathExists target then
    if mounted0.contains target then
      if env.umountOk1 target then [Ev.umount target]
      else if env.umountOk2 target then [Ev.umount target, Ev.kill, Ev.umount target]
      else [Ev.umount target, Ev.kill, Ev.umount target, Ev.warnUmountFailed target]
    else [Ev.skipNotMounted target]
  else [Ev.skipAbsent target]

/-- Specification helper: `unbind` clears a target iff it exists and one of the
two umount attempts succeeds. -/
def umountCleared (env : Env) (target : String) : Bool :=
  env.pathExists target && (env.umountOk1 target || env.umountOk2 target)

/-- Specification helper: a target defeats `unbind` iff it exists, is mounted,
and both umount attempts fail. -/
def umountFailed (env : Env) (mounted0 : List String) (target : String) : Bool :=
  env.pathExists target && mounted0.contains target &&
    !env.umountOk1 target && !env.umountOk2 target

/-- The loop of `Builder.mount_safety_check` (builder.py lines 593-610): scan
the configured mounts in insertion order; for each target that exists and is
currently a mount point, perform a full `unbind`; if the unbind raises, or the
target is still a mount point afterwards, raise
`"Unable to auto-unbind " + target` (the inner
`"Auto-unbind failed for " + target` error of line 606 is caught by the
surrounding `except CatalystError` and replaced by the outer message of
line 610). -/
def safetyGo (env : Env) (cfg : Cfg) : List String → BState → BState × Option String
  | [], st => (st, none)
  | x :: rest, st =>
    if env.pathExists (targetOf cfg x) then
      if st.mounted.contains (targetOf cfg x) then
        match unbind env cfg st with
        | (st', some _) => (st', some ("Unable to auto-unbind " ++ targetOf cfg x))
        | (st', none) =>
          if st'.mounted.contains (targetOf cfg x) then
            (st', some ("Unable to auto-unbind " ++ targetOf cfg x))
          else safetyGo env cfg rest st'
      else safetyGo env cfg rest st
    else safetyGo env cfg rest st

/-- `Builder.mount_safety_check` (builder.py lines 582-610): immediately
return when the working chroot directory does not exist, otherwise scan every
configured mount target. -/
def mount_safety_check (env : Env) (cfg : Cfg) (st : BState) : BState × Option String :=
  if env.pathExists cfg.chrootPath then safetyGo env cfg cfg.mounts st
  else (st, none)

/-- The loop of `Builder.bind` (builder.py lines 846-878): for each logical
mount in insertion order, ensure the target and source directories exist
(directory creation is not part of the modelled state), compute the mount
command and run it.  A command is issued in every branch except
`maybe_tmpfs` without the `var_tmpfs_portage` setting; the platform-specific
choice of command (bind mount, tmpfs, FreeBSD nullfs, ...) only affects the
command line, which we model as the single mount effect on the target.
`support.cmd` is not among the provided sources; modelled from the spec
(§4.2): on command failure it invokes the `fail_func` (here `self.unbind`)
before surfacing the error. -/
def bindGo (env : Env) (cfg : Cfg) : List String → BState → BState × Option String
  | [], st => (st, none)
  | x :: rest, st =>
    if cfg.mountmap x == "maybe_tmpfs" && !cfg.varTmpfsPortage then
      bindGo env cfg rest st
    else
      if env.mountOk (targetOf cfg x) then
        bindGo env cfg rest
          { st with mounted := st.mounted ++ [targetOf cfg x],
                    trace := st.trace ++ [Ev.mount (targetOf cfg x)] }
      else
        ((unbind env cfg { st with trace := st.trace ++ [Ev.mount (targetOf cfg x)] }).1,
         some ("cmd failed: mount " ++ targetOf cfg x))

/-- `Builder.bind` (builder.py lines 845-879). -/
def bind (env : Env) (cfg : Cfg) (st : BState) : BState × Option String :=
  bindGo env cfg cfg.mounts st

/-- The result of `Builder._run` as seen by the caller: a returned boolean or
a propagated exception. -/
inductive RunResult where
  | ok (b : Bool)
  | raised (msg : String)
deriving DecidableEq

/-- The stage loop of `Builder._run` (builder.py lines 1356-1365): run the
stage bodies in sequence (logging `--- Running action sequence: x` first,
recorded as an `Ev.stage` event); when a body raises, set the failure flag
and break.  The stage bodies themselves are an arbitrary parameter `body`,
exactly as `_run` dispatches on the stage name via `getattr`. -/
def runStages (body : String → BState → BState × Option String) :
    List String → BState → BState × Bool
  | [], st => (st, false)
  | x :: rest, st =>
    match body x { st with trace := st.trace ++ [Ev.stage x] } with
    | (st2, none) => runStages body rest st2
    | (st2, some _) => (st2, true)

/-- The stage-execution part of `Builder._run` (builder.py lines 1356-1371):
after the loop, a set failure flag triggers `self.unbind()` and `return
False`; an exception raised by `unbind` itself propagates to the caller. -/
def runActionLoop (env : Env) (cfg : Cfg)
    (body : String → BState → BState × Option String)
    (seq : List String) (st : BState) : BState × RunResult :=
  match runStages body seq st with
  | (st1, false) => (st1, RunResult.ok true)
  | (st1, true) =>
    match unbind env cfg st1 with
    | (st2, none) => (st2, RunResult.ok false)
    | (st2, some m) => (st2, RunResult.raised m)

/-- `Builder.clear_autoresume` (builder.py lines 1612-1616): clear every
resume point, but only when the `autoresume` option is set. -/
def clear_autoresume (cfg : Cfg) (st : BState) : BState :=
  if cfg.options.contains "autoresume" then { st with resume := [] } else st

/-- `Builder.clear_chroot` (builder.py lines 1626-1628): `clear_dir` on the
chroot path. -/
def clear_chroot (cfg : Cfg) (st : BState) : BState :=
  { st with trace := st.trace ++ [Ev.clearDir cfg.chrootPath] }

/-- Python equality between a computed hash string and an optional recorded
hash (`h == clst` where `clst` may be `None`): false when no hash is
recorded. -/
def optEqString (h : String) (o : Option String) : Bool :=
  match o with
  | some c => h == c
  | none => false

/-- The `if _unpack:` block of `Builder.unpack` (builder.py lines 691-723):
mount-safety check, then — when the chroot was invalidated — `clear_autoresume`
and `clear_chroot`, then `ensure_dirs` (not part of the modelled state), one
invocation of `self.decompressor.extract` (its boolean result is only used for
a `log.error` on line 715), and finally `self.resume.enable("unpack")`, with
the source hash as data when `source_path_hash` is in the settings (which
`set_source_path`, lines 367-373, arranges exactly when the source path is a
plain file). -/
def unpackBody (env : Env) (cfg : Cfg) (st : BState) (u invalid : Bool) :
    BState × Option String :=
  if u then
    match mount_safety_check env cfg st with
    | (st1, some e) => (st1, some e)
    | (st1, none) =>
      let st2 := if invalid then clear_chroot cfg (clear_autoresume cfg st1) else st1
      let st3 := { st2 with trace := st2.trace ++ [Ev.extract cfg.sourcePath cfg.chrootPath] }
      ({ st3 with resume :=
          if env.isFile cfg.sourcePath then
            resumeEnable st3.resume "unpack" (some cfg.sourcePathHash)
          else resumeEnable st3.resume "unpack" none }, none)
  else (st, none)

/-- `Builder.unpack` (builder.py lines 612-723).  The `(_unpack,
invalid_chroot)` pair starts as `(True, True)`; with autoresume it becomes
`(False, False)` when the chroot directory exists and the `unpack` resume
point is enabled, and is then re-decided by comparing the freshly computed
source hash with the hash recorded at the `unpack` resume point (the
comparison only happens when the source is a file and the chroot was not
already invalid; `.replace("\n", " ")` normalization of the stored hash is
modelled as the identity on the abstract hash string).  Without autoresume, a
directory source without the `seedcache` option raises.  `file_check`
(from `glivedisk.support`, not among the provided sources) only locates the
concrete archive file and is modelled as the identity on the source path. -/
def unpack (env : Env) (cfg : Cfg) (st : BState) : BState × Option String :=
  if cfg.options.contains "autoresume" then
    if env.isDir cfg.chrootPath && resumeIsEnabled st.resume "unpack" then
      if env.isFile cfg.sourcePath then
        if optEqString cfg.sourcePathHash (resumeGet st.resume "unpack") then
          unpackBody env cfg st false false
        else unpackBody env cfg st true true
      else unpackBody env cfg st false false
    else unpackBody env cfg st true true
  else
    if cfg.options.contains "seedcache" then unpackBody env cfg st true true
    else if env.isDir cfg.sourcePath then
      (st, some ("source path is a dir but seedcache is not enabled: " ++ cfg.sourcePath))
    else unpackBody env cfg st true true

/-- `Builder.unpack_snapshot` (builder.py lines 725-786).  With `snapcache`
the gate is the hash stored in the snapshot cache's `catalyst-hash` file and
a successful unpack rewrites that file; otherwise the gate is the
`unpack_repo` resume point (autoresume enabled, `target_portdir` exists,
point enabled, recorded hash equal to the fresh snapshot hash) and a
successful unpack records the fresh hash at that point.  In both cases the
unpack path first runs `clear_dir(target_portdir)` and then one invocation of
`self.decompressor.extract` (whose boolean result is only used for a
`log.error` on line 778). -/
def unpack_snapshot (env : Env) (cfg : Cfg) (st : BState) : BState × Option String :=
  if cfg.options.contains "snapcache" then
    if optEqString cfg.snapshotPathHash env.snapCacheHash then
      (st, none)
    else
      let st1 := { st with trace := st.trace ++
        [Ev.clearDir (cfg.chrootPath ++ cfg.repoBasedir ++ "/" ++ cfg.repoName)] }
      let st2 := { st1 with trace := st1.trace ++
        [Ev.extract cfg.snapshotPath cfg.snapshotCachePath] }
      ({ st2 with trace := st2.trace ++ [Ev.snapHashWrite cfg.snapshotPathHash] }, none)
  else
    if cfg.options.contains "autoresume"
        && env.pathExists (cfg.chrootPath ++ cfg.repoBasedir ++ "/" ++ cfg.repoName)
        && resumeIsEnabled st.resume "unpack_repo"
        && optEqString cfg.snapshotPathHash (resumeGet st.resume "unpack_repo") then
      (st, none)
    else
      let st1 := { st with trace := st.trace ++
        [Ev.clearDir (cfg.chrootPath ++ cfg.repoBasedir ++ "/" ++ cfg.repoName)] }
      let st2 := { st1 with trace := st1.trace ++
        [Ev.extract cfg.snapshotPath (cfg.chrootPath ++ cfg.repoBasedir)] }
      ({ st2 with
          resume := resumeEnable st2.resume "unpack_repo" (some cfg.snapshotPathHash) },
       none)

/-- `Builder.capture` (builder.py lines 1204-1243): skip when autoresume has a
`capture` resume point; otherwise run `self.compressor.compress` once and,
only if it reports success, generate the contents and digest files and enable
the `capture` resume point; on reported failure only a warning is logged and
the resume point is not recorded. -/
def capture (env : Env) (cfg : Cfg) (st : BState) : BState × Option String :=
  if cfg.options.contains "autoresume" && resumeIsEnabled st.resume "capture" then
    (st, none)
  else
    let st1 := { st with trace := st.trace ++ [Ev.compress cfg.targetPath] }
    if env.compressOk then
      ({ st1 with resume := resumeEnable st1.resume "capture" none }, none)
    else (st1, none)

/-- `Builder._copy_kernel_config` (builder.py lines 1510-1523): when a config
is configured for the kernel, a missing config file triggers `self.unbind()`
followed by a raised `CatalystError`; otherwise the file is copied into the
chroot (the swallowed `IOError` branch of line 1522 is modelled as a
successful copy). -/
def copy_kernel_config (env : Env) (cfg : Cfg) (kname : String) (st : BState) :
    BState × Option String :=
  if cfg.hasKernelConfig kname then
    if env.pathExists (cfg.kernelConfigPath kname) then
      ({ st with trace := st.trace ++ [Ev.copyConfig kname] }, none)
    else
      ((unbind env cfg st).1,
       some ("Can't find kernel config: " ++ cfg.kernelConfigPath kname))
  else (st, none)

/-- The temporary initramfs-overlay cleanup of `_build_kernel`
(builder.py lines 1500-1502): a `clear_dir` when an overlay is configured for
the kernel. -/
def overlayCleanup (cfg : Cfg) (kname : String) : List Ev :=
  if cfg.hasInitramfsOverlay kname then
    [Ev.clearDir (cfg.chrootPath ++ "/tmp/initramfs_overlay/")]
  else []

/-- `Builder._build_kernel` (builder.py lines 1469-1508): skip when autoresume
has a `build_kernel_<kname>` resume point; otherwise copy the kernel config,
set up per-kernel environment variables (environment only, not modelled
state), run the controller `kernel` command, clean the temporary initramfs
overlay, and run `post-kmerge`.  Line 1504 calls
`self.resume.is_enabled("build_kernel_" + kname)` — a pure query whose result
is discarded — so the per-kernel resume point is never enabled here. -/
def build_kernel_single (env : Env) (cfg : Cfg) (kname : String) (st : BState) :
    BState × Option String :=
  if cfg.options.contains "autoresume"
      && resumeIsEnabled st.resume ("build_kernel_" ++ kname) then
    (st, none)
  else
    match copy_kernel_config env cfg kname st with
    | (st1, some e) => (st1, some e)
    | (st1, none) =>
      if env.cmdOk ["kernel", kname] then
        if env.cmdOk ["post-kmerge"] then
          ({ st1 with trace := st1.trace ++ [Ev.ctrl ["kernel", kname]]
              ++ overlayCleanup cfg kname ++ [Ev.ctrl ["post-kmerge"]] }, none)
        else
          ({ st1 with trace := st1.trace ++ [Ev.ctrl ["kernel", kname]]
              ++ overlayCleanup cfg kname ++ [Ev.ctrl ["post-kmerge"]] },
           some "cmd failed: post-kmerge")
      else
        ({ st1 with trace := st1.trace ++ [Ev.ctrl ["kernel", kname]] },
         some "cmd failed: kernel")

/-- The fixed basic stage list of `Builder.set_action_sequence`
(builder.py lines 446-449). -/
def default_action_base : List String :=
  ["unpack", "unpack_snapshot", "setup_confdir", "portage_overlay", "base_dirs",
   "bind", "chroot_setup", "setup_environment", "run_local", "preclean",
   "unbind", "clean"]

/-- `Builder.set_completion_action_sequences` (builder.py lines 452-462). -/
def set_completion_action_sequences (options : List String) (seq : List String) :
    List String :=
  let seq1 := if options.contains "fetch" then seq else seq ++ ["capture"]
  if options.contains "keepwork" then seq1 ++ ["clear_autoresume"]
  else if options.contains "seedcache" then seq1 ++ ["remove_autoresume"]
  else (seq1 ++ ["remove_autoresume"]) ++ ["remove_chroot"]

/-- `Builder.set_action_sequence` (builder.py lines 444-450). -/
def set_action_sequence (options : List String) : List String :=
  set_completion_action_sequences options default_action_base

/-- `Builder.set_default_action_sequence` (builder.py lines 433-442). -/
def set_default_action_sequence (options : List String) : List String :=
  if options.contains "purgeonly" then ["remove_chroot"] else set_action_sequence options

/-- `Builder.required_values` (builder.py lines 52-64). -/
def required_values : List String :=
  ["storedir", "sharedir", "distdir", "portdir", "version_stamp", "target",
   "subarch", "rel_type", "profile", "snapshot", "source_subpath"]

/-- `Builder.valid_values` (builder.py lines 66-98; `compression_mode` appears
twice in the source list and the duplicate is kept). -/
def valid_values : List String :=
  ["portage_confdir", "portage_prefix", "portage_overlay", "cflags", "cxxflags",
   "fcflags", "fflags", "ldflags", "asflags", "common_flags", "cbuild",
   "hostuse", "catalyst_use", "distcc_hosts", "makeopts", "pkgcache_path",
   "kerncache_path", "compression_mode", "decompression_mode", "interpreter",
   "fstype", "fsopts", "options", "snapshot_cache", "hash_function", "digests",
   "contents", "compressor_arch", "compression_mode", "compressor_options",
   "decompressor_search_order"]

/-- `Builder.set_valid_build_kernel_vars` (builder.py lines 539-563): for each
configured kernel name, the per-kernel keys appended to `valid_values` before
`_addl_arg_parse` runs. -/
def set_valid_build_kernel_vars (bootKernel : List String) : List String :=
  bootKernel.flatMap (fun x =>
    ["boot/kernel/" ++ x ++ "/aliases", "boot/kernel/" ++ x ++ "/config",
     "boot/kernel/" ++ x ++ "/console", "boot/kernel/" ++ x ++ "/extraversion",
     "boot/kernel/" ++ x ++ "/gk_action", "boot/kernel/" ++ x ++ "/gk_kernargs",
     "boot/kernel/" ++ x ++ "/initramfs_overlay",
     "boot/kernel/" ++ x ++ "/machine_type", "boot/kernel/" ++ x ++ "/sources",
     "boot/kernel/" ++ x ++ "/softlevel", "boot/kernel/" ++ x ++ "/use",
     "boot/kernel/" ++ x ++ "/packages", "boot/kernel/" ++ x ++ "/kernelopts"])

/-- The `Argument "x" not recognized.` messages collected by
`Builder._addl_arg_parse` (builder.py lines 1669-1671), in settings order. -/
def unknown_messages (valid required keys : List String) : List String :=
  (keys.filter (fun x => !valid.contains x && !required.contains x)).map
    (fun x => "Argument \"" ++ x ++ "\" not recognized.")

/-- The `Required argument "x" not specified.` messages collected by
`Builder._addl_arg_parse` (builder.py lines 1673-1675). -/
def missing_messages (required keys : List String) : List String :=
  (required.filter (fun x => !keys.contains x)).map
    (fun x => "Required argument \"" ++ x ++ "\" not specified.")

/-- `Builder._addl_arg_parse` (builder.py lines 1665-1678): collect the
messages for unrecognized settings keys and for missing required keys, and
raise a single `CatalystError` joining all of them when there is at least
one. -/
def addl_arg_parse (valid required keys : List String) : Option String :=
  let messages := unknown_messages valid required keys ++ missing_messages required keys
  if messages.length > 0 then some (String.intercalate "\n\tAlso: " messages)
  else none

/-- A world oracle where every path exists and every external command
succeeds; concrete scenarios below override individual fields. -/
def baseEnv : Env :=
  { pathExists := fun _ => true, isDir := fun _ => true, isFile := fun _ => true,
    umountOk1 := fun _ => true, umountOk2 := fun _ => true, mountOk := fun _ => true,
    extractOk := fun _ => true, compressOk := true, cmdOk := fun _ => true,
    snapCacheHash := none }

/-- A small concrete configuration; concrete scenarios below override
individual fields. -/
def baseCfg : Cfg :=
  { mounts := [], targetMounts := fun x => "/" ++ x, mountmap := fun _ => "/hostsrc",
    chrootPath := "/c", options := [], sourcePath := "/src", sourcePathHash := "h",
    snapshotPath := "/snap", snapshotPathHash := "sh", snapshotCachePath := "/scache",
    repoBasedir := "/var/db/repos", repoName := "gentoo", targetPath := "/out",
    varTmpfsPortage := false, hasKernelConfig := fun _ => false,
    kernelConfigPath := fun _ => "/kconf", hasInitramfsOverlay := fun _ => false }

/-- Scenario for the fail-stop property: stage bodies that record their own
resume point on success and raise on the `configure` stage. -/
def bodyW1 : String → BState → BState × Option String := fun name st =>
  if name == "configure" then (st, some "configure failed")
  else ({ st with resume := resumeEnable st.resume name none }, none)

def stW1 : BState := { mounted := [], resume := [], trace := [] }

/-- The state after the successful `unpack` and `mount` stages of the
fail-stop scenario. -/
def st1W1 : BState :=
  { mounted := [], resume := [("mount", none), ("unpack", none)],
    trace := [Ev.stage "unpack", Ev.stage "mount"] }

/-- The state at the moment the `configure` stage of the fail-stop scenario
raises. -/
def st2W1 : BState :=
  { mounted := [], resume := [("mount", none), ("unpack", none)],
    trace := [Ev.stage "unpack", Ev.stage "mount", Ev.stage "configure"] }

/-- Scenario for the reverse-unmount-order property: target `B` is absent. -/
def envW2 : Env := { baseEnv with pathExists := fun t => t != "/c/B" }

def cfgW2 : Cfg := { baseCfg with mounts := ["A", "B", "C"] }

def stW2 : BState := { mounted := ["/c/A", "/c/C"], resume := [], trace := [] }

/-- Scenario for the mount-safety-check property: one configured mount,
nothing mounted. -/
def cfgW3 : Cfg := { baseCfg with mounts := ["A"] }

def stW3 : BState := { mounted := [], resume := [], trace := [] }

/-- Scenario for the unmount-escalation property: the first umount attempt
fails, the retry succeeds. -/
def envW4 : Env := { baseEnv with umountOk1 := fun _ => false }

def cfgW4 : Cfg := { baseCfg with mounts := ["A"] }

def stW4 : BState := { mounted := ["/c/A"], resume := [], trace := [] }

/-- Counterexample scenario: target `/c/A` defeats both umount attempts. -/
def envC4 : Env :=
  { baseEnv with umountOk1 := fun _ => false, umountOk2 := fun _ => false }

def cfgC4 : Cfg := { baseCfg with mounts := ["A"] }

def stC4 : BState := { mounted := ["/c/A"], resume := [], trace := [] }

/-- Scenario for the bind-rollback property: mounting `B` fails after `A`
succeeded. -/
def envW5 : Env := { baseEnv with mountOk := fun t => t != "/c/B" }

def cfgW5 : Cfg := { baseCfg with mounts := ["A", "B"] }

def stW5 : BState := { mounted := [], resume := [], trace := [] }

/-- Scenario for the hash-gated-skip property: chroot exists, `unpack`
checkpoint holds the hash of the current source. -/
def cfgW6 : Cfg := { baseCfg with options := ["autoresume"] }

def stW6 : BState := { mounted := [], resume := [("unpack", some "h")], trace := [] }

/-- Counterexample scenario for the hash gate: same matching checkpoint hash,
but the chroot directory does not exist. -/
def envC6 : Env := { baseEnv with isDir := fun _ => false }

def cfgC6 : Cfg := { baseCfg with options := ["autoresume"] }

def stC6 : BState := { mounted := [], resume := [("unpack", some "h")], trace := [] }

/-- Scenario for the checkpoint-on-success property: the extractor and the
compressor both report failure; the chroot is absent so `unpack` takes the
extraction path. -/
def envC7 : Env :=
  { baseEnv with isDir := fun _ => false, extractOk := fun _ => false,
                 compressOk := false }

def cfgC7 : Cfg := { baseCfg with options := ["autoresume"] }

def stC7 : BState := { mounted := [], resume := [], trace := [] }

/-- Scenario for the kernel-build frame property: everything succeeds, no
per-kernel config or overlay, autoresume disabled. -/
def stW10 : BState := { mounted := [], resume := [], trace := [] }

theorem unbindEventsFor_congr (env : Env) {m m' : List String} (t : String)
    (h : m.contains t = m'.contains t) :
    unbindEventsFor env m t = unbindEventsFor env m' t := by
  simp only [unbindEventsFor, h]

theorem umountFailed_congr (env : Env) {m m' : List String} (t : String)
    (h : m.contains t = m'.contains t) :
    umountFailed env m t = umountFailed env m' t := by
  simp only [umountFailed, h]

theorem contains_filter_ne (m : List String) {t t0 : String} (h : t ≠ t0) :
    (m.filter (fun u => u != t0)).contains t = m.contains t := by
  simp [List.contains, List.elem_eq_mem, List.mem_filter, h]

theorem anyCongr {α : Type} {l : List α} {p q : α → Bool}
    (h : ∀ a ∈ l, p a = q a) : l.any p = l.any q := by
  induction l with
  | nil => rfl
  | cons a l ih =>
    rw [List.any_cons, List.any_cons, h a (List.mem_cons_self a l),
      ih (fun b hb => h b (List.mem_cons_of_mem a hb))]

/-- Behaviour of the `unbind` loop, provided the configured targets are
pairwise distinct paths: the mount state loses exactly the targets that were
cleared, the resume store is untouched, the trace grows by the per-target
event blocks in list order, and the failure flag is set iff some target
defeated both umount attempts. -/
theorem unbindGo_spec (env : Env) (cfg : Cfg) (names : List String) :
    ∀ (ouch : Bool) (st : BState), (names.map (targetOf cfg)).Nodup →
    unbindGo env cfg names ouch st =
      ({ mounted := st.mounted.filter
            (fun t => !((names.map (targetOf cfg)).contains t && umountCleared env t)),
         resume := st.resume,
         trace := st.trace ++
            (names.map (targetOf cfg)).flatMap (unbindEventsFor env st.mounted) },
       ouch || names.any (fun x => umountFailed env st.mounted (targetOf cfg x))) := by
  induction names with
  | nil =>
    intro ouch st _
    simp [unbindGo]
  | cons x rest ih =>
    intro ouch st hnd
    have hnd' : (rest.map (targetOf cfg)).Nodup := (List.nodup_cons.mp hnd).2
    have hx : targetOf cfg x ∉ rest.map (targetOf cfg) := (List.nodup_cons.mp hnd).1
    by_cases hpe : env.pathExists (targetOf cfg x) = true
    · by_cases hmt : st.mounted.contains (targetOf cfg x) = true
      · have hmem : targetOf cfg x ∈ st.mounted := by
          simpa [List.contains, List.elem_eq_mem] using hmt
        by_cases ho1 : env.umountOk1 (targetOf cfg x) = true
        · -- first umount attempt succeeds
          rw [unbindGo, if_pos hpe, if_pos hmt, if_pos ho1, ih _ _ hnd']
          have hclear : umountCleared env (targetOf cfg x) = true := by
            simp [umountCleared, hpe, ho1]
          refine Prod.ext ?_ ?_
          · refine BState.ext ?_ rfl ?_
            · show (st.mounted.filter _).filter _ = st.mounted.filter _
              rw [List.filter_filter]
              refine List.filter_congr ?_
              intro t _
              by_cases hteq : t = targetOf cfg x
              · subst hteq
                simp [List.contains_cons, hclear]
              · simp [List.contains_cons, contains_filter_ne _ hteq,
                  beq_eq_decide, hteq]
            · show (st.trace ++ _) ++ _ = st.trace ++ _
              rw [List.map_cons, List.flatMap_cons, List.append_assoc]
              congr 1
              have hevx : unbindEventsFor env st.mounted (targetOf cfg x) =
                  [Ev.umount (targetOf cfg x)] := by
                simp [unbindEventsFor, hpe, hmt, hmem, ho1]
              rw [hevx]
              congr 1
              refine List.flatMap_congr ?_
              intro t ht
              refine unbindEventsFor_congr env t ?_
              exact contains_filter_ne _ (fun hc => hx (hc ▸ ht))
          · show (ouch || _) = (ouch || _)
            have hfx : umountFailed env st.mounted (targetOf cfg x) = false := by
              simp [umountFailed, ho1]
            rw [List.any_cons, hfx, Bool.false_or]
            congr 1
            refine anyCongr ?_
            intro t ht
            refine umountFailed_congr env _ ?_
            exact contains_filter_ne _ (fun hc => hx (hc ▸ (List.mem_map_of_mem _ ht)))
        · by_cases ho2 : env.umountOk2 (targetOf cfg x) = true
          · -- retry after killing chroot pids succeeds
            rw [unbindGo, if_pos hpe, if_pos hmt, if_neg ho1,
              if_pos ho2, ih _ _ hnd']
            have hclear : umountCleared env (targetOf cfg x) = true := by
              simp [umountCleared, hpe, ho2]
            refine Prod.ext ?_ ?_
            · refine BState.ext ?_ rfl ?_
              · show (st.mounted.filter _).filter _ = st.mounted.filter _
                rw [List.filter_filter]
                refine List.filter_congr ?_
                intro t _
                by_cases hteq : t = targetOf cfg x
                · subst hteq
                  simp [List.contains_cons, hclear]
                · simp [List.contains_cons, contains_filter_ne _ hteq,
                    beq_eq_decide, hteq]
              · show (st.trace ++ _) ++ _ = st.trace ++ _
                rw [List.map_cons, List.flatMap_cons, List.append_assoc]
                congr 1
                have hevx : unbindEventsFor env st.mounted (targetOf cfg x) =
                    [Ev.umount (targetOf cfg x), Ev.kill, Ev.umount (targetOf cfg x)] := by
                  unfold unbindEventsFor
                  rw [if_pos hpe, if_pos hmt, if_neg ho1, if_pos ho2]
                rw [hevx]
                congr 1
                refine List.flatMap_congr ?_
                intro t ht
                refine unbindEventsFor_congr env t ?_
                exact contains_filter_ne _ (fun hc => hx (hc ▸ ht))
            · show (ouch || _) = (ouch || _)
              have hfx : umountFailed env st.mounted (targetOf cfg x) = false := by
                simp [umountFailed, ho2]
              rw [List.any_cons, hfx, Bool.false_or]
              congr 1
              refine anyCongr ?_
              intro t ht
              refine umountFailed_congr env _ ?_
              exact contains_filter_ne _ (fun hc => hx (hc ▸ (List.mem_map_of_mem _ ht)))
          · -- both attempts fail: record the failure and continue
            rw [unbindGo, if_pos hpe, if_pos hmt, if_neg ho1,
              if_neg ho2, ih _ _ hnd']
            have hclear : umountCleared env (targetOf cfg x) = false := by
              simp [umountCleared, hpe, ho1, ho2]
            refine Prod.ext ?_ ?_
            · refine BState.ext ?_ rfl ?_
              · show st.mounted.filter _ = st.mounted.filter _
                refine List.filter_congr ?_
                intro t _
                by_cases hteq : t = targetOf cfg x
                · subst hteq
                  simp [List.contains_cons, hclear]
                · simp [List.contains_cons, beq_eq_decide, hteq]
              · show (st.trace ++ _) ++ _ = st.trace ++ _
                rw [List.map_cons, List.flatMap_cons, List.append_assoc]
                congr 1
                have hevx : unbindEventsFor env st.mounted (targetOf cfg x) =
                    [Ev.umount (targetOf cfg x), Ev.kill, Ev.umount (targetOf cfg x),
                     Ev.warnUmountFailed (targetOf cfg x)] := by
                  unfold unbindEventsFor
                  rw [if_pos hpe, if_pos hmt, if_neg ho1, if_neg ho2]
                rw [hevx]
            · have hfx : umountFailed env st.mounted (targetOf cfg x) = true := by
                simp [umountFailed, hpe, hmt, hmem, ho1, ho2]
              simp [List.any_cons, hfx]
      · -- target is not a mount point: skip with a log notice
        have hnmem : targetOf cfg x ∉ st.mounted := by
          simpa [List.contains, List.elem_eq_mem] using hmt
        rw [unbindGo, if_pos hpe, if_neg hmt, ih _ _ hnd']
        refine Prod.ext ?_ ?_
        · refine BState.ext ?_ rfl ?_
          · show st.mounted.filter _ = st.mounted.filter _
            refine List.filter_congr ?_
            intro t htm
            by_cases hteq : t = targetOf cfg x
            · subst hteq
              exact absurd htm hnmem
            · simp [List.contains_cons, beq_eq_decide, hteq]
          · show (st.trace ++ _) ++ _ = st.trace ++ _
            rw [List.map_cons, List.flatMap_cons, List.append_assoc]
            congr 1
            have hevx : unbindEventsFor env st.mounted (targetOf cfg x) =
                [Ev.skipNotMounted (targetOf cfg x)] := by
              unfold unbindEventsFor
              rw [if_pos hpe, if_neg hmt]
            rw [hevx]
        · show (ouch || _) = (ouch || _)
          have hfx : umountFailed env st.mounted (targetOf cfg x) = false := by
            simp [umountFailed, hnmem]
          rw [List.any_cons, hfx, Bool.false_or]
    · -- target path does not exist: skip with a log notice
      rw [unbindGo, if_neg hpe, ih _ _ hnd']
      refine Prod.ext ?_ ?_
      · refine BState.ext ?_ rfl ?_
        · show st.mounted.filter _ = st.mounted.filter _
          refine List.filter_congr ?_
          intro t _
          by_cases hteq : t = targetOf cfg x
          · subst hteq
            simp [List.contains_cons, umountCleared, hpe]
          · simp [List.contains_cons, beq_eq_decide, hteq]
        · show (st.trace ++ _) ++ _ = st.trace ++ _
          rw [List.map_cons, List.flatMap_cons, List.append_assoc]
          congr 1
          have hevx : unbindEventsFor env st.mounted (targetOf cfg x) =
              [Ev.skipAbsent (targetOf cfg x)] := by
            unfold unbindEventsFor
            rw [if_neg hpe]
          rw [hevx]
      · show (ouch || _) = (ouch || _)
        have hfx : umountFailed env st.mounted (targetOf cfg x) = false := by
          simp [umountFailed, hpe]
        rw [List.any_cons, hfx, Bool.false_or]

/-- `unbind` never touches the resume store (no `Nodup` assumption needed). -/
theorem unbindGo_resume (env : Env) (cfg : Cfg) (names : List String) :
    ∀ (ouch : Bool) (st : BState),
    (unbindGo env cfg names ouch st).1.resume = st.resume := by
  induction names with
  | nil => intro ouch st; simp [unbindGo]
  | cons x rest ih =>
    intro ouch st
    rw [unbindGo]
    by_cases hpe : env.pathExists (targetOf cfg x) = true
    · rw [if_pos hpe]
      by_cases hmt : st.mounted.contains (targetOf cfg x) = true
      · rw [if_pos hmt]
        by_cases ho1 : env.umountOk1 (targetOf cfg x) = true
        · rw [if_pos ho1]; exact ih _ _
        · rw [if_neg ho1]
          by_cases ho2 : env.umountOk2 (targetOf cfg x) = true
          · rw [if_pos ho2]; exact ih _ _
          · rw [if_neg ho2]; exact ih _ _
      · rw [if_neg hmt]; exact ih _ _
    · rw [if_neg hpe]; exact ih _ _

theorem unbind_resume (env : Env) (cfg : Cfg) (st : BState) :
    (unbind env cfg st).1.resume = st.resume := by
  unfold unbind
  have h := unbindGo_resume env cfg cfg.mounts.reverse false st
  by_cases hf : (unbindGo env cfg cfg.mounts.reverse false st).2 = true
  · rw [if_pos hf]; exact h
  · rw [if_neg hf]; exact h

/-- Closed form of `unbind` (targets pairwise distinct): final mount state,
untouched resume store, the trace decomposed into per-target blocks in
reverse insertion order, and the aggregate error raised iff some target
defeated both umount attempts. -/
theorem unbind_spec (env : Env) (cfg : Cfg) (st : BState)
    (hnd : (cfg.mounts.map (targetOf cfg)).Nodup) :
    unbind env cfg st =
      ({ mounted := st.mounted.filter
            (fun t => !((cfg.mounts.map (targetOf cfg)).contains t && umountCleared env t)),
         resume := st.resume,
         trace := st.trace ++
            (cfg.mounts.reverse.map (targetOf cfg)).flatMap (unbindEventsFor env st.mounted) },
       if cfg.mounts.any (fun x => umountFailed env st.mounted (targetOf cfg x))
         then some unmountFailMsg else none) := by
  have hnd' : (cfg.mounts.reverse.map (targetOf cfg)).Nodup := by
    rw [List.map_reverse]
    exact List.nodup_reverse.mpr hnd
  have h := unbindGo_spec env cfg cfg.mounts.reverse false st hnd'
  have hfilt : st.mounted.filter
        (fun t => !((cfg.mounts.reverse.map (targetOf cfg)).contains t && umountCleared env t))
      = st.mounted.filter
        (fun t => !((cfg.mounts.map (targetOf cfg)).contains t && umountCleared env t)) := by
    refine List.filter_congr ?_
    intro t _
    have hc : (cfg.mounts.reverse.map (targetOf cfg)).contains t
        = (cfg.mounts.map (targetOf cfg)).contains t := by
      rw [List.map_reverse]
      simp [List.contains, List.elem_eq_mem]
    rw [hc]
  have hany : (cfg.mounts.reverse.any fun x => umountFailed env st.mounted (targetOf cfg x))
      = cfg.mounts.any fun x => umountFailed env st.mounted (targetOf cfg x) := by
    simp
  unfold unbind
  rw [h]
  simp only [Bool.false_or]
  rw [hfilt, hany]
  by_cases hf : (cfg.mounts.any fun x => umountFailed env st.mounted (targetOf cfg x)) = true
  · rw [if_pos hf, if_pos hf]
  · rw [if_neg hf, if_neg hf]

/-- C2 — Reverse unmount order: `unbind` considers the configured targets in
exactly the reverse of the bind/insertion order — the trace extends by the
concatenation of per-target event blocks over the reversed mount list —
absent and not-mounted targets are skipped with a log event (their block is
the single skip notice) rather than an error, leaving the order of the other
entries undisturbed, and no error is raised unless some mounted target
defeats both umount attempts. -/
theorem unbind_reverse_order (env : Env) (cfg : Cfg) (st : BState)
    (hnd : (cfg.mounts.map (targetOf cfg)).Nodup) :
    (unbind env cfg st).1.trace = st.trace ++
        (cfg.mounts.reverse.map (targetOf cfg)).flatMap (unbindEventsFor env st.mounted)
    ∧ (∀ t, env.pathExists t = false →
        unbindEventsFor env st.mounted t = [Ev.skipAbsent t])
    ∧ (∀ t, env.pathExists t = true → st.mounted.contains t = false →
        unbindEventsFor env st.mounted t = [Ev.skipNotMounted t])
    ∧ ((unbind env cfg st).2 = none ↔
        ∀ x ∈ cfg.mounts, umountFailed env st.mounted (targetOf cfg x) = false) := by
  have h := unbind_spec env cfg st hnd
  refine ⟨by rw [h], ?_, ?_, ?_⟩
  · intro t ht
    unfold unbindEventsFor
    rw [if_neg (by simp [ht])]
  · intro t ht hmt
    unfold unbindEventsFor
    rw [if_pos ht, if_neg (by rw [hmt]; simp)]
  · rw [h]
    by_cases hf : (cfg.mounts.any fun x => umountFailed env st.mounted (targetOf cfg x)) = true
    · rw [if_pos hf]
      constructor
      · intro hc
        exact absurd hc (by simp)
      · intro hall
        rcases List.any_eq_true.mp hf with ⟨x, hx, hp⟩
        rw [hall x hx] at hp
        exact absurd hp (by simp)
    · rw [if_neg hf]
      rw [Bool.not_eq_true, List.any_eq_false] at hf
      constructor
      · intro _ x hx
        have := hf x hx
        simpa [Bool.not_eq_true] using this
      · intro _
        rfl

/-- Witness for C2: targets bound in order `[A, B, C]` with `B` absent are
considered in order `[C, B, A]`; `B` contributes only a skip notice. -/
theorem unbind_reverse_order_witness :
    (unbind envW2 cfgW2 stW2).1.trace =
      [Ev.umount "/c/C", Ev.skipAbsent "/c/B", Ev.umount "/c/A"] := by
  have h := (unbind_reverse_order envW2 cfgW2 stW2 (by decide)).1
  rw [h]
  decide

/-- C4 (amended) — Unmount escalation and aggregate failure: when a mounted
target's first umount attempt fails, the chroot pids are killed and the
umount is retried exactly once (the target's event block contains exactly the
two umount attempts around the kill); a target that defeats the retry only
adds a warning naming it, the remaining entries are still processed (every
entry contributes its block to the trace), and after the whole loop a single
aggregate error is raised iff some target could not be unmounted — the
error's message is the fixed `unmountFailMsg`, which does not name the failed
targets. -/
theorem unbind_escalation_aggregate (env : Env) (cfg : Cfg) (st : BState)
    (hnd : (cfg.mounts.map (targetOf cfg)).Nodup) :
    (∀ t, env.pathExists t = true → st.mounted.contains t = true →
        env.umountOk1 t = false →
        unbindEventsFor env st.mounted t =
          if env.umountOk2 t then [Ev.umount t, Ev.kill, Ev.umount t]
          else [Ev.umount t, Ev.kill, Ev.umount t, Ev.warnUmountFailed t])
    ∧ (unbind env cfg st).1.trace = st.trace ++
        (cfg.mounts.reverse.map (targetOf cfg)).flatMap (unbindEventsFor env st.mounted)
    ∧ ((unbind env cfg st).2 = some unmountFailMsg ↔
        ∃ x ∈ cfg.mounts, umountFailed env st.mounted (targetOf cfg x) = true)
    ∧ (∀ msg, (unbind env cfg st).2 = some msg → msg = unmountFailMsg) := by
  have h := unbind_spec env cfg st hnd
  refine ⟨?_, by rw [h], ?_, ?_⟩
  · intro t h1 h2 h3
    unfold unbindEventsFor
    rw [if_pos h1, if_pos h2, if_neg (by simp [h3])]
  · rw [h]
    by_cases hf : (cfg.mounts.any fun x => umountFailed env st.mounted (targetOf cfg x)) = true
    · rw [if_pos hf]
      simp only [Option.some.injEq, eq_self_iff_true, true_iff]
      exact List.any_eq_true.mp hf
    · rw [if_neg hf]
      rw [Bool.not_eq_true, List.any_eq_false] at hf
      constructor
      · intro hc
        exact absurd hc (by simp)
      · intro hex
        rcases hex with ⟨x, hx, hp⟩
        exact absurd hp (by simpa [Bool.not_eq_true] using hf x hx)
  · intro msg hmsg
    rw [h] at hmsg
    by_cases hf : (cfg.mounts.any fun x => umountFailed env st.mounted (targetOf cfg x)) = true
    · rw [if_pos hf] at hmsg
      simpa using hmsg.symm
    · rw [if_neg hf] at hmsg
      exact absurd hmsg (by simp)

/-- Witness for C4: a target whose first umount attempt fails is retried
exactly once after the kill, and when the retry succeeds no error is
raised. -/
theorem unbind_escalation_aggregate_witness :
    unbindEventsFor envW4 stW4.mounted "/c/A" =
      [Ev.umount "/c/A", Ev.kill, Ev.umount "/c/A"]
    ∧ (unbind envW4 cfgW4 stW4).2 = none := by
  have h := unbind_escalation_aggregate envW4 cfgW4 stW4 (by decide)
  constructor
  · have h1 := h.1 "/c/A" (by decide) (by decide) (by decide)
    rw [h1]
    decide
  · decide

/-- Counterexample to C4 as stated: with target `/c/A` mounted and defeating
both umount attempts, `unbind` raises the aggregate error, but the raised
message is the fixed string, which does not contain the failed target's
name — the error does not "name every target that could not be unmounted"
(the names only appear in warning log events). -/
theorem unbind_error_names_no_target :
    (unbind envC4 cfgC4 stC4).2 = some unmountFailMsg
    ∧ Ev.warnUmountFailed "/c/A" ∈ (unbind envC4 cfgC4 stC4).1.trace
    ∧ ¬ ("/c/A".data <:+: unmountFailMsg.data) := by
  refine ⟨by decide, by decide, by decide⟩

/-- Unfolding equation of `safetyGo` at a cons cell. -/
theorem safetyGo_cons (env : Env) (cfg : Cfg) (x : String) (rest : List String)
    (st : BState) :
    safetyGo env cfg (x :: rest) st =
      (if env.pathExists (targetOf cfg x) then
        if st.mounted.contains (targetOf cfg x) then
          match unbind env cfg st with
          | (st', some _) => (st', some ("Unable to auto-unbind " ++ targetOf cfg x))
          | (st', none) =>
            if st'.mounted.contains (targetOf cfg x) then
              (st', some ("Unable to auto-unbind " ++ targetOf cfg x))
            else safetyGo env cfg rest st'
        else safetyGo env cfg rest st
      else safetyGo env cfg rest st) := rfl

/-- Unfolding equation of `runStages` at a cons cell. -/
theorem runStages_cons (body : String → BState → BState × Option String)
    (x : String) (rest : List String) (st : BState) :
    runStages body (x :: rest) st =
      (match body x { st with trace := st.trace ++ [Ev.stage x] } with
      | (st2, none) => runStages body rest st2
      | (st2, some _) => (st2, true)) := rfl

/-- Unfolding equation of `bindGo` at a cons cell. -/
theorem bindGo_cons (env : Env) (cfg : Cfg) (x : String) (rest : List String)
    (st : BState) :
    bindGo env cfg (x :: rest) st =
      (if cfg.mountmap x == "maybe_tmpfs" && !cfg.varTmpfsPortage then
        bindGo env cfg rest st
      else
        if env.mountOk (targetOf cfg x) then
          bindGo env cfg rest
            { st with mounted := st.mounted ++ [targetOf cfg x],
                      trace := st.trace ++ [Ev.mount (targetOf cfg x)] }
        else
          ((unbind env cfg { st with trace := st.trace ++ [Ev.mount (targetOf cfg x)] }).1,
           some ("cmd failed: mount " ++ targetOf cfg x))) := rfl

/-- The safety-check loop ignores a prefix of mounts whose existing targets
are not mounted. -/
theorem safetyGo_skip (env : Env) (cfg : Cfg) (pre tail : List String) :
    ∀ st : BState,
    (∀ y ∈ pre, env.pathExists (targetOf cfg y) = true →
        st.mounted.contains (targetOf cfg y) = false) →
    safetyGo env cfg (pre ++ tail) st = safetyGo env cfg tail st := by
  induction pre with
  | nil => intro st _; rfl
  | cons y pre' ih =>
    intro st hclean
    rw [List.cons_append, safetyGo_cons]
    by_cases hpe : env.pathExists (targetOf cfg y) = true
    · rw [if_pos hpe]
      have hmt := hclean y (List.mem_cons_self _ _) hpe
      rw [if_neg (by rw [hmt]; simp)]
      exact ih st (fun z hz => hclean z (List.mem_cons_of_mem _ hz))
    · rw [if_neg hpe]
      exact ih st (fun z hz => hclean z (List.mem_cons_of_mem _ hz))

/-- C3 — Mount safety check before destructive cleanup: with an existing
working root, `mount_safety_check` scans the configured mount targets in
order.  If no existing target is currently a mount point it returns without
raising and with the state completely unchanged.  When the scan reaches a
first existing target that is a mount point, it attempts the unmount-all
operation (`unbind`) once; if `unbind` raises, or that target is still a
mount point afterwards, `mount_safety_check` raises
`"Unable to auto-unbind " + target` (so callers must not proceed to delete
the root); only if the target was cleared does the scan continue. -/
theorem mount_safety_check_spec (env : Env) (cfg : Cfg) (st : BState)
    (hroot : env.pathExists cfg.chrootPath = true) :
    ((∀ x ∈ cfg.mounts, env.pathExists (targetOf cfg x) = true →
        st.mounted.contains (targetOf cfg x) = false) →
      mount_safety_check env cfg st = (st, none))
    ∧ (∀ pre x rest, cfg.mounts = pre ++ x :: rest →
        (∀ y ∈ pre, env.pathExists (targetOf cfg y) = true →
            st.mounted.contains (targetOf cfg y) = false) →
        env.pathExists (targetOf cfg x) = true →
        st.mounted.contains (targetOf cfg x) = true →
        mount_safety_check env cfg st =
          (match unbind env cfg st with
           | (st', some _) => (st', some ("Unable to auto-unbind " ++ targetOf cfg x))
           | (st', none) =>
             if st'.mounted.contains (targetOf cfg x) then
               (st', some ("Unable to auto-unbind " ++ targetOf cfg x))
             else safetyGo env cfg rest st')) := by
  constructor
  · intro hclean
    unfold mount_safety_check
    rw [if_pos hroot]
    calc safetyGo env cfg cfg.mounts st
        = safetyGo env cfg (cfg.mounts ++ []) st := by rw [List.append_nil]
      _ = safetyGo env cfg [] st := safetyGo_skip env cfg cfg.mounts [] st hclean
      _ = (st, none) := rfl
  · intro pre x rest hdecomp hclean hx1 hx2
    unfold mount_safety_check
    rw [if_pos hroot, hdecomp, safetyGo_skip env cfg pre (x :: rest) st hclean,
      safetyGo_cons, if_pos hx1, if_pos hx2]

/-- Witness for C3: one configured mount, nothing mounted — the check returns
without raising and without modifying any state. -/
theorem mount_safety_check_witness :
    mount_safety_check baseEnv cfgW3 stW3 = (stW3, none) := by
  exact (mount_safety_check_spec baseEnv cfgW3 stW3 (by decide)).1 (by decide)

/-- A successfully completed prefix of the stage loop composes. -/
theorem runStages_append (body : String → BState → BState × Option String)
    (pre rest : List String) :
    ∀ st st1 : BState, runStages body pre st = (st1, false) →
    runStages body (pre ++ rest) st = runStages body rest st1 := by
  induction pre with
  | nil =>
    intro st st1 h
    simp only [runStages] at h
    cases h
    rfl
  | cons x pre' ih =>
    intro st st1 h
    rw [List.cons_append, runStages_cons]
    rw [runStages_cons] at h
    rcases hb : body x { st with trace := st.trace ++ [Ev.stage x] } with ⟨st2, e⟩
    rw [hb] at h
    cases e with
    | none => exact ih st2 st1 h
    | some m => exact absurd h (by simp)

/-- C1 — Fail-stop of the pipeline: when the stages of `pre` complete and
stage `s` raises, the run never invokes any stage of `post` (the outcome
equals the outcome with `post` removed), `unbind` is invoked afterwards (the
final outcome is exactly unbind's outcome: `return False`, or unbind's own
raised error), the run never reports success, and the resume points recorded
by the stages that completed before `s` survive — the failure path leaves the
resume store exactly as it was when `s` raised. -/
theorem run_fail_stop (env : Env) (cfg : Cfg)
    (body : String → BState → BState × Option String)
    (pre post : List String) (s : String) (st0 st1 st2 : BState) (msg : String)
    (hpre : runStages body pre st0 = (st1, false))
    (hs : body s { st1 with trace := st1.trace ++ [Ev.stage s] } = (st2, some msg)) :
    (∀ st3, unbind env cfg st2 = (st3, none) →
        runActionLoop env cfg body (pre ++ s :: post) st0 = (st3, RunResult.ok false))
    ∧ (∀ st3 m, unbind env cfg st2 = (st3, some m) →
        runActionLoop env cfg body (pre ++ s :: post) st0 = (st3, RunResult.raised m))
    ∧ runActionLoop env cfg body (pre ++ s :: post) st0 =
        runActionLoop env cfg body (pre ++ [s]) st0
    ∧ (runActionLoop env cfg body (pre ++ s :: post) st0).2 ≠ RunResult.ok true
    ∧ (runActionLoop env cfg body (pre ++ s :: post) st0).1.resume = st2.resume := by
  have hrun : runStages body (pre ++ s :: post) st0 = (st2, true) := by
    rw [runStages_append body pre (s :: post) st0 st1 hpre, runStages_cons, hs]
  have hrun1 : runStages body (pre ++ [s]) st0 = (st2, true) := by
    rw [runStages_append body pre [s] st0 st1 hpre, runStages_cons, hs]
  have hloop : runActionLoop env cfg body (pre ++ s :: post) st0 =
      (match unbind env cfg st2 with
       | (st4, none) => (st4, RunResult.ok false)
       | (st4, some m) => (st4, RunResult.raised m)) := by
    unfold runActionLoop
    rw [hrun]
  have hloop1 : runActionLoop env cfg body (pre ++ [s]) st0 =
      (match unbind env cfg st2 with
       | (st4, none) => (st4, RunResult.ok false)
       | (st4, some m) => (st4, RunResult.raised m)) := by
    unfold runActionLoop
    rw [hrun1]
  refine ⟨?_, ?_, ?_, ?_, ?_⟩
  · intro st3 h3
    rw [hloop, h3]
  · intro st3 m h3
    rw [hloop, h3]
  · rw [hloop, hloop1]
  · rw [hloop]
    rcases hu : unbind env cfg st2 with ⟨st3, e⟩
    cases e with
    | none => simp
    | some m => simp
  · rw [hloop]
    have hres := unbind_resume env cfg st2
    rcases hu : unbind env cfg st2 with ⟨st3, e⟩
    rw [hu] at hres
    cases e with
    | none => exact hres
    | some m => exact hres

/-- Witness for C1: with stages `[unpack, mount, configure, run, clean]` where
`configure` raises, the run returns `False`, and the `unpack` and `mount`
resume points recorded before the failure are still satisfied afterwards. -/
theorem run_fail_stop_witness :
    runActionLoop baseEnv baseCfg bodyW1 ["unpack", "mount", "configure", "run", "clean"] stW1 =
      (st2W1, RunResult.ok false)
    ∧ resumeIsEnabled st2W1.resume "unpack" = true
    ∧ resumeIsEnabled st2W1.resume "mount" = true := by
  have h := run_fail_stop baseEnv baseCfg bodyW1 ["unpack", "mount"] ["run", "clean"]
    "configure" stW1 st1W1 st2W1 "configure failed" (by decide) (by decide)
  refine ⟨?_, by decide, by decide⟩
  exact h.1 st2W1 (by decide)

/-- Under the rollback hypotheses every mounted target of the configured
table is cleared by `unbind`. -/
theorem unbind_mounted_nil (env : Env) (cfg : Cfg) (st : BState)
    (hnd : (cfg.mounts.map (targetOf cfg)).Nodup)
    (hsub : ∀ t ∈ st.mounted, t ∈ cfg.mounts.map (targetOf cfg))
    (hclr : ∀ t ∈ st.mounted, umountCleared env t = true) :
    (unbind env cfg st).1.mounted = [] := by
  rw [unbind_spec env cfg st hnd]
  refine List.filter_eq_nil_iff.mpr ?_
  intro a ha
  have h1 : (cfg.mounts.map (targetOf cfg)).contains a = true := by
    simpa [List.contains, List.elem_eq_mem] using hsub a ha
  rw [h1, hclr a ha]
  decide

/-- The bind loop, on failure, ends in a state produced by a full `unbind`
with no mount of the table left mounted. -/
theorem bindGo_rollback (env : Env) (cfg : Cfg)
    (hnd : (cfg.mounts.map (targetOf cfg)).Nodup)
    (hex : ∀ x ∈ cfg.mounts, env.pathExists (targetOf cfg x) = true)
    (hok : ∀ x ∈ cfg.mounts, env.umountOk1 (targetOf cfg x) = true)
    (names : List String) :
    ∀ (st st' : BState) (e : String),
    (∀ x ∈ names, x ∈ cfg.mounts) →
    (∀ t ∈ st.mounted, t ∈ cfg.mounts.map (targetOf cfg)) →
    bindGo env cfg names st = (st', some e) →
    st'.mounted = [] ∧ ∃ stMid, st' = (unbind env cfg stMid).1 := by
  induction names with
  | nil =>
    intro st st' e _ _ h
    exact absurd h (by simp [bindGo])
  | cons x rest ih =>
    intro st st' e hsub hmsub h
    rw [bindGo_cons] at h
    by_cases hskip : (cfg.mountmap x == "maybe_tmpfs" && !cfg.varTmpfsPortage) = true
    · rw [if_pos hskip] at h
      exact ih st st' e (fun z hz => hsub z (List.mem_cons_of_mem _ hz)) hmsub h
    · rw [if_neg hskip] at h
      by_cases hmo : env.mountOk (targetOf cfg x) = true
      · rw [if_pos hmo] at h
        refine ih _ st' e (fun z hz => hsub z (List.mem_cons_of_mem _ hz)) ?_ h
        intro t ht
        rcases List.mem_append.mp ht with h1 | h1
        · exact hmsub t h1
        · rw [List.mem_singleton.mp h1]
          exact List.mem_map_of_mem _ (hsub x (List.mem_cons_self _ _))
      · rw [if_neg hmo] at h
        cases h
        constructor
        · refine unbind_mounted_nil env cfg _ hnd ?_ ?_
          · intro t ht
            exact hmsub t ht
          · intro t ht
            have htg := hmsub t ht
            rcases List.mem_map.mp htg with ⟨y, hy, hyt⟩
            rw [← hyt]
            simp [umountCleared, hex y hy, hok y hy]
        · exact ⟨_, rfl⟩

/-- C5 — Compensating rollback on partial bind failure: for every mount list,
starting from a state with nothing mounted (so every mounted target is one
this bind attempt created), if some entry fails to bind then the error the
caller sees comes out of a full `unbind` invocation (the resulting state is
an `unbind` result), and no mount created by the attempt remains: the final
mounted set is empty.  Hypotheses: the targets are distinct paths, they exist
(`bind` runs `ensure_dirs` on each target first), and their unmount succeeds. -/
theorem bind_rollback (env : Env) (cfg : Cfg) (st : BState)
    (hnd : (cfg.mounts.map (targetOf cfg)).Nodup)
    (hm0 : st.mounted = [])
    (hex : ∀ x ∈ cfg.mounts, env.pathExists (targetOf cfg x) = true)
    (hok : ∀ x ∈ cfg.mounts, env.umountOk1 (targetOf cfg x) = true)
    (st' : BState) (e : String)
    (hfail : bind env cfg st = (st', some e)) :
    st'.mounted = [] ∧ ∃ stMid, st' = (unbind env cfg stMid).1 := by
  refine bindGo_rollback env cfg hnd hex hok cfg.mounts st st' e (fun z hz => hz) ?_ hfail
  rw [hm0]
  intro t ht
  cases ht

/-- Witness for C5: binding `[A, B]` where `B` fails leaves nothing mounted
after the rollback. -/
theorem bind_rollback_witness :
    (bind envW5 cfgW5 stW5).1.mounted = [] := by
  have h := bind_rollback envW5 cfgW5 stW5 (by decide) (by decide) (by decide) (by decide)
      (bind envW5 cfgW5 stW5).1 "cmd failed: mount /c/B" (by decide)
  exact h.1

theorem optEqString_refl (h : String) : optEqString h (some h) = true := by
  simp [optEqString]

theorem optEqString_eq_false {h : String} {o : Option String} (hne : o ≠ some h) :
    optEqString h o = false := by
  cases o with
  | none => rfl
  | some c =>
    have hc : h ≠ c := fun he => hne (by rw [he])
    simp [optEqString, hc]

/-- With nothing mounted the safety check passes and modifies nothing. -/
theorem mount_safety_check_nil_mounted (env : Env) (cfg : Cfg) (st : BState)
    (hm : st.mounted = []) :
    mount_safety_check env cfg st = (st, none) := by
  unfold mount_safety_check
  by_cases hroot : env.pathExists cfg.chrootPath = true
  · rw [if_pos hroot]
    have hclean : ∀ y ∈ cfg.mounts, env.pathExists (targetOf cfg y) = true →
        st.mounted.contains (targetOf cfg y) = false := by
      intro y _ _
      rw [hm]
      rfl
    calc safetyGo env cfg cfg.mounts st
        = safetyGo env cfg (cfg.mounts ++ []) st := by rw [List.append_nil]
      _ = safetyGo env cfg [] st := safetyGo_skip env cfg cfg.mounts [] st hclean
      _ = (st, none) := rfl
  · rw [if_neg hroot]

/-- Closed form of the extraction path of `unpack` with an invalidated
chroot: clear the resume store and the chroot, extract once, record the fresh
source hash. -/
theorem unpackBody_extract (env : Env) (cfg : Cfg) (st : BState)
    (hau : cfg.options.contains "autoresume" = true)
    (hm : st.mounted = []) (hf : env.isFile cfg.sourcePath = true) :
    unpackBody env cfg st true true =
      ({ mounted := st.mounted,
         resume := [("unpack", some cfg.sourcePathHash)],
         trace := st.trace ++ [Ev.clearDir cfg.chrootPath,
                               Ev.extract cfg.sourcePath cfg.chrootPath] }, none) := by
  have hau' : "autoresume" ∈ cfg.options := by
    simpa [List.contains, List.elem_eq_mem] using hau
  unfold unpackBody clear_autoresume clear_chroot
  rw [mount_safety_check_nil_mounted env cfg st hm]
  simp [hau', hf, resumeEnable]

/-- C6 (amended) — Hash-gated skip of expensive unpack, with autoresume and a
file source.  `unpack`: when the chroot directory exists (with its `unpack`
resume point enabled) and the hash recorded at the `unpack` resume point
equals the freshly computed source hash, nothing happens — no extraction, the
state is returned untouched; when the recorded hash differs or is absent, the
destination is invalidated (the resume store is cleared and the chroot
directory is clear_dir-ed), exactly one extraction occurs, and the freshly
computed hash is what ends up recorded at the `unpack` point.
`unpack_snapshot` (without `snapcache`): when the target portage directory
exists and the `unpack_repo` data equals the fresh snapshot hash, nothing
happens; otherwise the target portage directory is cleared, exactly one
extraction occurs, and the fresh snapshot hash is recorded at `unpack_repo`.
The amendment over the claim as stated: the skip additionally requires the
destination directory to exist (the chroot for `unpack`, the target portage
directory for the snapshot) — when it is missing, extraction happens even for
equal hashes. -/
theorem unpack_hash_gate (env : Env) (cfg : Cfg) (st : BState) :
    ((cfg.options.contains "autoresume" = true →
      env.isDir cfg.chrootPath = true →
      env.isFile cfg.sourcePath = true →
      resumeIsEnabled st.resume "unpack" = true →
      resumeGet st.resume "unpack" = some cfg.sourcePathHash →
      unpack env cfg st = (st, none))
    ∧ (cfg.options.contains "autoresume" = true →
      env.isFile cfg.sourcePath = true →
      st.mounted = [] →
      resumeGet st.resume "unpack" ≠ some cfg.sourcePathHash →
      unpack env cfg st =
        ({ mounted := st.mounted,
           resume := [("unpack", some cfg.sourcePathHash)],
           trace := st.trace ++ [Ev.clearDir cfg.chrootPath,
                                 Ev.extract cfg.sourcePath cfg.chrootPath] }, none))
    ∧ (cfg.options.contains "snapcache" = false →
      cfg.options.contains "autoresume" = true →
      env.pathExists (cfg.chrootPath ++ cfg.repoBasedir ++ "/" ++ cfg.repoName) = true →
      resumeIsEnabled st.resume "unpack_repo" = true →
      resumeGet st.resume "unpack_repo" = some cfg.snapshotPathHash →
      unpack_snapshot env cfg st = (st, none))
    ∧ (cfg.options.contains "snapcache" = false →
      resumeGet st.resume "unpack_repo" ≠ some cfg.snapshotPathHash →
      unpack_snapshot env cfg st =
        ({ mounted := st.mounted,
           resume := resumeEnable st.resume "unpack_repo" (some cfg.snapshotPathHash),
           trace := st.trace ++
             [Ev.clearDir (cfg.chrootPath ++ cfg.repoBasedir ++ "/" ++ cfg.repoName),
              Ev.extract cfg.snapshotPath (cfg.chrootPath ++ cfg.repoBasedir)] },
         none))) := by
  refine ⟨?_, ?_, ?_, ?_⟩
  · intro hau hd hf hen hget
    unfold unpack
    rw [if_pos hau, if_pos (by rw [hd, hen]; try decide), if_pos hf,
      if_pos (by rw [hget, optEqString_refl]; try decide)]
    rfl
  · intro hau hf hm hdiff
    have hne : optEqString cfg.sourcePathHash (resumeGet st.resume "unpack") = false :=
      optEqString_eq_false hdiff
    unfold unpack
    rw [if_pos hau]
    by_cases hde : (env.isDir cfg.chrootPath && resumeIsEnabled st.resume "unpack") = true
    · rw [if_pos hde, if_pos hf, if_neg (by rw [hne]; simp)]
      exact unpackBody_extract env cfg st hau hm hf
    · rw [if_neg hde]
      exact unpackBody_extract env cfg st hau hm hf
  · intro hsc hau hpe hen hget
    unfold unpack_snapshot
    rw [if_neg (by rw [hsc]; simp),
      if_pos (by rw [hau, hpe, hen, hget, optEqString_refl]; try decide)]
  · intro hsc hdiff
    have hne : optEqString cfg.snapshotPathHash (resumeGet st.resume "unpack_repo") = false :=
      optEqString_eq_false hdiff
    unfold unpack_snapshot
    rw [if_neg (by rw [hsc]; simp), if_neg (by rw [hne]; simp)]
    simp

/-- Witness for C6: a recorded `unpack` hash equal to the fresh source hash,
with the chroot directory present — `unpack` changes nothing. -/
theorem unpack_hash_gate_witness :
    unpack baseEnv cfgW6 stW6 = (stW6, none) :=
  (unpack_hash_gate baseEnv cfgW6 stW6).1 (by decide) (by decide) (by decide)
    (by decide) (by decide)

/-- Counterexample to C6 as stated: the freshly computed source hash equals
the hash recorded at the `unpack` checkpoint, autoresume is on, the source is
a file — yet because the chroot directory does not exist, the extractor is
invoked (an extraction event appears in the trace), contradicting "the
extractor is never invoked and the destination is left untouched". -/
theorem unpack_hash_gate_counterexample :
    resumeGet stC6.resume "unpack" = some cfgC6.sourcePathHash
    ∧ cfgC6.options.contains "autoresume" = true
    ∧ envC6.isFile cfgC6.sourcePath = true
    ∧ envC6.isDir cfgC6.chrootPath = false
    ∧ Ev.extract cfgC6.sourcePath cfgC6.chrootPath ∈ (unpack envC6 cfgC6 stC6).1.trace := by
  refine ⟨by decide, by decide, by decide, by decide, by decide⟩

/-- C7 — the code records the `unpack` checkpoint even when the extractor
reports failure: with `decompressor.extract` returning false, `unpack` still
enables the `unpack` resume point and stores the fresh source hash (lines
714-721 only log the error), while `capture` with a failed compressor
correctly does not record its checkpoint (lines 1238-1243).  This evaluates
the embedded code at the failing input of the claim. -/
theorem unpack_records_checkpoint_despite_failed_extract :
    envC7.extractOk cfgC7.sourcePath = false
    ∧ resumeIsEnabled (unpack envC7 cfgC7 stC7).1.resume "unpack" = true
    ∧ resumeGet (unpack envC7 cfgC7 stC7).1.resume "unpack" = some cfgC7.sourcePathHash
    ∧ envC7.compressOk = false
    ∧ resumeIsEnabled (capture envC7 cfgC7 stC7).1.resume "capture" = false := by
  refine ⟨by decide, by decide, by decide, by decide, by decide⟩

/-- C8 — Stage-list computation from options: `purgeonly` collapses the
sequence to `[remove_chroot]`; otherwise the fixed twelve-stage list is
followed by `capture` unless `fetch` is present, then `clear_autoresume` when
`keepwork` is present, else `remove_autoresume` plus — unless `seedcache` is
present — `remove_chroot`.  The sequence is a pure function of the options,
computed once at construction (`__init__` line 211); `_run` only reads it. -/
theorem action_sequence_spec (options : List String) :
    set_default_action_sequence options =
      (if options.contains "purgeonly" then ["remove_chroot"]
      else
        ["unpack", "unpack_snapshot", "setup_confdir", "portage_overlay", "base_dirs",
         "bind", "chroot_setup", "setup_environment", "run_local", "preclean",
         "unbind", "clean"]
        ++ (if options.contains "fetch" then [] else ["capture"])
        ++ (if options.contains "keepwork" then ["clear_autoresume"]
            else ["remove_autoresume"]
              ++ (if options.contains "seedcache" then [] else ["remove_chroot"]))) := by
  unfold set_default_action_sequence set_action_sequence set_completion_action_sequences
    default_action_base
  cases hp : options.contains "purgeonly" <;> cases hf : options.contains "fetch" <;>
    cases hk : options.contains "keepwork" <;> cases hs : options.contains "seedcache" <;>
      simp [hp, hf, hk, hs]

/-- C9 — Configuration validation at construction: `_addl_arg_parse` (run
from `__init__` before any stage, on the `valid_values` list as extended by
`set_valid_build_kernel_vars`) raises iff some settings key is in neither the
valid-values nor the required-values list, or some required key is absent;
the collected messages contain one entry naming each offending key; and when
it does not raise, every required key is present in the settings. -/
theorem addl_arg_parse_spec (bootKernel keys : List String) :
    ((addl_arg_parse (valid_values ++ set_valid_build_kernel_vars bootKernel)
        required_values keys).isSome = true ↔
      ((∃ k ∈ keys, k ∉ valid_values ++ set_valid_build_kernel_vars bootKernel ∧
          k ∉ required_values)
        ∨ (∃ r ∈ required_values, r ∉ keys)))
    ∧ (∀ k ∈ keys, k ∉ valid_values ++ set_valid_build_kernel_vars bootKernel →
        k ∉ required_values →
        ("Argument \"" ++ k ++ "\" not recognized.") ∈
          unknown_messages (valid_values ++ set_valid_build_kernel_vars bootKernel)
            required_values keys)
    ∧ (∀ r ∈ required_values, r ∉ keys →
        ("Required argument \"" ++ r ++ "\" not specified.") ∈
          missing_messages required_values keys)
    ∧ (addl_arg_parse (valid_values ++ set_valid_build_kernel_vars bootKernel)
        required_values keys = none → ∀ r ∈ required_values, r ∈ keys) := by
  have hunk : ∀ valid required : List String,
      (unknown_messages valid required keys = [] ↔
        ∀ k ∈ keys, k ∈ valid ∨ k ∈ required) := by
    intro valid required
    unfold unknown_messages
    rw [List.map_eq_nil_iff, List.filter_eq_nil_iff]
    constructor
    · intro h k hk
      have := h k hk
      by_cases hv : k ∈ valid
      · exact Or.inl hv
      · refine Or.inr ?_
        by_contra hr
        exact this (by simp [List.contains, List.elem_eq_mem, hv, hr])
    · intro h k hk hcon
      rcases h k hk with hv | hr
      · simp [List.contains, List.elem_eq_mem, hv] at hcon
      · simp [List.contains, List.elem_eq_mem, hr] at hcon
  have hmis : ∀ required : List String,
      (missing_messages required keys = [] ↔ ∀ r ∈ required, r ∈ keys) := by
    intro required
    unfold missing_messages
    rw [List.map_eq_nil_iff, List.filter_eq_nil_iff]
    constructor
    · intro h r hr
      have := h r hr
      by_contra hk
      exact this (by simp [List.contains, List.elem_eq_mem, hk])
    · intro h r hr hcon
      simp [List.contains, List.elem_eq_mem, h r hr] at hcon
  have hsome : ∀ valid required : List String,
      ((addl_arg_parse valid required keys).isSome = true ↔
        ¬(unknown_messages valid required keys = [] ∧
          missing_messages required keys = [])) := by
    intro valid required
    unfold addl_arg_parse
    by_cases hlen :
        (unknown_messages valid required keys ++ missing_messages required keys).length > 0
    · rw [if_pos hlen]
      simp only [Option.isSome_some, true_iff]
      intro hboth
      rw [hboth.1, hboth.2] at hlen
      simp at hlen
    · rw [if_neg hlen]
      simp only [Option.isSome_none, Bool.false_eq_true, false_iff, not_not]
      have h0 : (unknown_messages valid required keys ++ missing_messages required keys) = [] := by
        have := Nat.eq_zero_of_not_pos hlen
        exact List.length_eq_zero.mp this
      exact List.append_eq_nil.mp h0
  refine ⟨?_, ?_, ?_, ?_⟩
  · rw [hsome, hunk, hmis]
    constructor
    · intro h
      by_cases h1 : ∀ k ∈ keys,
          k ∈ valid_values ++ set_valid_build_kernel_vars bootKernel ∨ k ∈ required_values
      · refine Or.inr ?_
        by_contra h2
        push_neg at h2
        exact h ⟨h1, h2⟩
      · push_neg at h1
        exact Or.inl h1
    · intro h hboth
      rcases h with h | h
      · rcases h with ⟨k, hk, hv, hr⟩
        rcases hboth.1 k hk with hc | hc
        · exact hv hc
        · exact hr hc
      · rcases h with ⟨r, hr, hk⟩
        exact hk (hboth.2 r hr)
  · intro k hk hv hr
    unfold unknown_messages
    refine List.mem_map.mpr ⟨k, List.mem_filter.mpr ⟨hk, ?_⟩, rfl⟩
    simp [List.contains, List.elem_eq_mem, hv, hr]
  · intro r hr hk
    unfold missing_messages
    refine List.mem_map.mpr ⟨r, List.mem_filter.mpr ⟨hr, ?_⟩, rfl⟩
    simp [List.contains, List.elem_eq_mem, hk]
  · intro hnone r hr
    unfold addl_arg_parse at hnone
    by_cases hlen :
        (unknown_messages (valid_values ++ set_valid_build_kernel_vars bootKernel)
          required_values keys ++ missing_messages required_values keys).length > 0
    · rw [if_pos hlen] at hnone
      exact absurd hnone (by simp)
    · have h0 := List.length_eq_zero.mp (Nat.eq_zero_of_not_pos hlen)
      exact (hmis required_values).mp (List.append_eq_nil.mp h0).2 r hr

/-- Witness for C9: the unknown key `bogus` is reported by name and forces a
raise. -/
theorem addl_arg_parse_spec_witness :
    ("Argument \"bogus\" not recognized.") ∈
      unknown_messages (valid_values ++ set_valid_build_kernel_vars []) required_values
        ["storedir", "bogus"]
    ∧ (addl_arg_parse (valid_values ++ set_valid_build_kernel_vars []) required_values
        ["storedir", "bogus"]).isSome = true := by
  have h := addl_arg_parse_spec [] ["storedir", "bogus"]
  constructor
  · exact h.2.1 "bogus" (by decide) (by decide) (by decide)
  · exact h.1.mpr (Or.inl ⟨"bogus", by decide, by decide, by decide⟩)

/-- `_copy_kernel_config` never touches the resume store. -/
theorem copy_kernel_config_resume (env : Env) (cfg : Cfg) (kname : String) (st : BState) :
    (copy_kernel_config env cfg kname st).1.resume = st.resume := by
  unfold copy_kernel_config
  by_cases h1 : cfg.hasKernelConfig kname = true
  · rw [if_pos h1]
    by_cases h2 : env.pathExists (cfg.kernelConfigPath kname) = true
    · rw [if_pos h2]
    · rw [if_neg h2]
      exact unbind_resume env cfg st
  · rw [if_neg h1]

/-- C10 — Frame effect of `_build_kernel`: a successful run leaves the
resume store unchanged — in particular the per-kernel
`build_kernel_<kname>` checkpoint is only queried, never enabled (the
`is_enabled` call of line 1504 is a pure query) — so after the call that
checkpoint is satisfied iff it was satisfied before, and a re-entered
autoresume build re-runs each individual kernel unless the aggregate
`build_kernel` checkpoint (or a pre-existing per-kernel point) gates it. -/
theorem build_kernel_resume_frame (env : Env) (cfg : Cfg) (kname : String) (st : BState)
    (hsucc : (build_kernel_single env cfg kname st).2 = none) :
    (build_kernel_single env cfg kname st).1.resume = st.resume
    ∧ resumeIsEnabled (build_kernel_single env cfg kname st).1.resume
        ("build_kernel_" ++ kname)
      = resumeIsEnabled st.resume ("build_kernel_" ++ kname) := by
  have hr : (build_kernel_single env cfg kname st).1.resume = st.resume := by
    unfold build_kernel_single
    by_cases h1 : (cfg.options.contains "autoresume"
        && resumeIsEnabled st.resume ("build_kernel_" ++ kname)) = true
    · rw [if_pos h1]
    · rw [if_neg h1]
      have hc := copy_kernel_config_resume env cfg kname st
      rcases hcc : copy_kernel_config env cfg kname st with ⟨st1, e⟩
      rw [hcc] at hc
      cases e with
      | some m => exact hc
      | none =>
        by_cases h2 : env.cmdOk ["kernel", kname] = true
        · by_cases h3 : env.cmdOk ["post-kmerge"] = true
          · simp only [h2, h3, if_true]
            exact hc
          · rw [Bool.not_eq_true] at h3
            simp only [h2, h3, if_true, Bool.false_eq_true, if_false]
            exact hc
        · rw [Bool.not_eq_true] at h2
          simp only [h2, Bool.false_eq_true, if_false]
          exact hc
  exact ⟨hr, by rw [hr]⟩

/-- Witness for C10: a fully successful kernel build leaves the resume store
untouched. -/
theorem build_kernel_resume_frame_witness :
    (build_kernel_single baseEnv baseCfg "k" stW10).2 = none
    ∧ (build_kernel_single baseEnv baseCfg "k" stW10).1.resume = stW10.resume := by
  have h := build_kernel_resume_frame baseEnv baseCfg "k" stW10 (by decide)
  exact ⟨by decide, h.1⟩

end Glivedisk
